import Mathlib

/-!
Shallow embedding of the Gobang (five-in-a-row) engine from `gobang.py`.

The Python program keeps a global `board` (a 15x15 list of lists of ints,
cells in {EMPTY, BLACK, WHITE}) and a `history` list.  All algorithmic reads
of the board are guarded by explicit `0 <= r < BOARD_SIZE` range checks, so
the board is embedded as a total function `Int → Int → Nat`; mutation
(`board[row][col] = v`) becomes the functional update `setCell`.  Stateful
functions are embedded by explicit state passing: they return the final
board alongside their Python return value.
-/

def BOARD_SIZE : Nat := 15

def EMPTY : Nat := 0

def BLACK : Nat := 1

def WHITE : Nat := 2

/-- A board is a total assignment of cell values; only coordinates with
`0 ≤ r,c < 15` are ever read by the embedded algorithms. -/
abbrev Board := Int → Int → Nat

/-- The move history: a list of `(row, col, player)` triples, appended at the
end (Python `history.append`). -/
abbrev History := List (Int × Int × Nat)

/-- The range guard `0 <= r < BOARD_SIZE and 0 <= c < BOARD_SIZE` that the
Python code writes before every board access in a scan. -/
def inRangeB (r c : Int) : Bool :=
  decide (0 ≤ r ∧ r < (BOARD_SIZE : Int) ∧ 0 ≤ c ∧ c < (BOARD_SIZE : Int))

/-- Functional update modelling the Python statement `board[row][col] = v`. -/
def setCell (b : Board) (row col : Int) (v : Nat) : Board :=
  fun r c => if r = row ∧ c = col then v else b r c

/-- The while loop `while 0 <= r < SIZE and 0 <= c < SIZE and board[r][c] == player:
count += 1; r += dr; c += dc`, counting matched cells from `(r, c)` in
direction `(dr, dc)`.  The loop is fuel-bounded: every direction used has a
nonzero component, so within the 15-wide range the loop body runs at most 14
times and fuel 16 is never exhausted. -/
def countDir (b : Board) (player : Nat) : Nat → Int → Int → Int → Int → Nat
  | 0, _, _, _, _ => 0
  | fuel + 1, r, c, dr, dc =>
    if inRangeB r c && (b r c == player) then
      1 + countDir b player fuel (r + dr) (c + dc) dr dc
    else 0

/-- The four axis vectors of `check_win` / `evaluate_line` / `count_consecutive`. -/
def directions : List (Int × Int) := [(0, 1), (1, 0), (1, 1), (1, -1)]

/-- The per-axis total of `check_win`: `count = 1` for the origin, plus the
forward scan from `(row+dr, col+dc)` and the backward scan from
`(row-dr, col-dc)` stepping by `(-dr, -dc)`. -/
def axisTotal (b : Board) (player : Nat) (row col dr dc : Int) : Nat :=
  1 + countDir b player 16 (row + dr) (col + dc) dr dc
    + countDir b player 16 (row - dr) (col - dc) (-dr) (-dc)

/-- Python `check_win(row, col, player)`: true iff on some axis the
bidirectional consecutive count reaches 5. -/
def check_win (b : Board) (row col : Int) (player : Nat) : Bool :=
  directions.any (fun d => decide (5 ≤ axisTotal b player row col d.1 d.2))

/-- Python `is_valid_move(row, col)`: in range and the cell is empty. -/
def is_valid_move (b : Board) (row col : Int) : Bool :=
  if inRangeB row col then b row col == EMPTY else false

/-- Python `make_move(row, col, player)`: sets the cell (no validity check),
appends to the history, and returns `check_win`.  The Python function
mutates the globals; here the new board and history are returned. -/
def make_move (b : Board) (hist : History) (row col : Int) (player : Nat) :
    Board × History × Bool :=
  let b2 := setCell b row col player
  (b2, hist ++ [(row, col, player)], check_win b2 row col player)

/-- Python `undo_move()`: if the history is nonempty, pops its last entry,
clears that cell and returns `True`; otherwise returns `False` leaving
everything unchanged. -/
def undo_move (b : Board) (hist : History) : (Board × History) × Bool :=
  match hist.getLast? with
  | some (row, col, _p) => ((setCell b row col EMPTY, hist.dropLast), true)
  | none => ((b, hist), false)

/-- The completely empty board. -/
def emptyB : Board := fun _ _ => EMPTY

/-- A board with a single black horizontal run on row 7, columns 5–9. -/
def b5run : Board := fun r c =>
  if r = 7 ∧ 5 ≤ c ∧ c ≤ 9 then BLACK else EMPTY

/-- A board with a single black horizontal run on row 7, columns 5–8. -/
def b4run : Board := fun r c =>
  if r = 7 ∧ 5 ≤ c ∧ c ≤ 8 then BLACK else EMPTY

/-- Python `count_consecutive(player, dr, dc)`: scans all cells in row-major
order; a cell `(row, col)` is treated as a run start only when its backward
neighbour `(row - dr, col - dc)` is out of range (this is the literal
translation of `if not (0 <= row - dr < BOARD_SIZE and 0 <= col - dc < BOARD_SIZE)`).
For a start holding `player`, `count` is `1` plus the forward while-loop
count, after which the loop variables rest on the first non-matching cell
`(row + count*dr, col + count*dc)`; that cell and the backward neighbour are
tested for being in-range and empty to compute `open_ends`.  Only runs with
`count >= 2` are emitted. -/
def ccEntry (b : Board) (player : Nat) (dr dc : Int) (row col : Nat) :
    Option (Nat × Nat) :=
  let rI : Int := row
  let cI : Int := col
  if inRangeB (rI - dr) (cI - dc) then none
  else if b rI cI == player then
    let count := 1 + countDir b player 16 (rI + dr) (cI + dc) dr dc
    let er := rI + (count : Int) * dr
    let ec := cI + (count : Int) * dc
    let oe1 : Nat := if inRangeB er ec && (b er ec == EMPTY) then 1 else 0
    let oe2 : Nat :=
      if inRangeB (rI - dr) (cI - dc) && (b (rI - dr) (cI - dc) == EMPTY)
      then 1 else 0
    if 2 ≤ count then some (count, oe1 + oe2) else none
  else none

def count_consecutive (b : Board) (player : Nat) (dr dc : Int) :
    List (Nat × Nat) :=
  (List.range BOARD_SIZE).flatMap (fun row =>
    (List.range BOARD_SIZE).filterMap (fun col => ccEntry b player dr dc row col))

/-- The per-pattern contribution of the `if`/`elif` chain in `evaluate_line`:
100000 for five-or-more, 10000/1000 for a four with 2/fewer open ends,
1000/100 for a three, 100/10 for a two, 0 otherwise. -/
def patternScore (count open_ends : Nat) : Nat :=
  if 5 ≤ count then 100000
  else if count = 4 then (if open_ends = 2 then 10000 else 1000)
  else if count = 3 then (if open_ends = 2 then 1000 else 100)
  else if count = 2 then (if open_ends = 2 then 100 else 10)
  else 0

/-- Python `evaluate_line(player)`: sum over the four axes of the summed
pattern contributions of `count_consecutive` on that axis. -/
def evaluate_line (b : Board) (player : Nat) : Nat :=
  (directions.map (fun d =>
    ((count_consecutive b player d.1 d.2).map
      (fun e => patternScore e.1 e.2)).sum)).sum

/-- Python `evaluate_position(row, col, player)`: temporarily writes `player`
into the cell, evaluates the attack score, restores `EMPTY`, temporarily
writes the opponent, evaluates the defend score and restores `EMPTY` again.
The embedding returns the `(attack, defend)` pair together with the board as
it stands after the function returns. -/
def evaluate_position (b : Board) (row col : Int) (player : Nat) :
    (Nat × Nat) × Board :=
  let opponent := if player == BLACK then WHITE else BLACK
  let b1 := setCell b row col player
  let attack_score := evaluate_line b1 player
  let b2 := setCell b1 row col EMPTY
  let b3 := setCell b2 row col opponent
  let defend_score := evaluate_line b3 opponent
  let b4 := setCell b3 row col EMPTY
  ((attack_score, defend_score), b4)

/-- The eight Chebyshev-1 neighbour offsets scanned by
`get_candidate_positions` (the `dr, dc` double loop minus `(0,0)`). -/
def neighborOffsets : List (Int × Int) :=
  [(-1, -1), (-1, 0), (-1, 1), (0, -1), (0, 1), (1, -1), (1, 0), (1, 1)]

/-- A cell has an occupied in-range Chebyshev-1 neighbour. -/
def hasStoneNeighbor (b : Board) (r c : Int) : Bool :=
  neighborOffsets.any (fun d =>
    inRangeB (r + d.1) (c + d.2) && !(b (r + d.1) (c + d.2) == EMPTY))

/-- Python `get_candidate_positions()`: the set of empty cells within one
step of an occupied cell.  The Python code builds a `set` by marking the
empty in-range neighbours of every occupied cell and returns `list(set)`
in unspecified order; that set is exactly the set of in-range empty cells
with an occupied in-range neighbour, embedded here in row-major order. -/
def get_candidate_positions (b : Board) : List (Int × Int) :=
  (List.range BOARD_SIZE).flatMap (fun row =>
    (List.range BOARD_SIZE).filterMap (fun col =>
      let rI : Int := row
      let cI : Int := col
      if (b rI cI == EMPTY) && hasStoneNeighbor b rI cI then some (rI, cI)
      else none))

/-- The per-candidate score of the `get_ai_move` loop:
`max(attack_score, defend_score)` for WHITE (the AI side is hardcoded)
plus the centre bonus `max(0, 10 - manhattan_distance) * 5`. -/
def total_score (b : Board) (row col : Int) : Int :=
  let es := (evaluate_position b row col WHITE).1
  let dist : Nat := (row - 7).natAbs + (col - 7).natAbs
  max (es.1 : Int) (es.2 : Int) + max 0 (10 - (dist : Int)) * 5

/-- The accumulator loop of `get_ai_move`: tracks `best_score`
(initially -1) and the list `best_moves` of candidates attaining it; a
strictly greater score resets the list, an equal score appends. -/
def selectLoop (b : Board) :
    List (Int × Int) → Int → List (Int × Int) → List (Int × Int)
  | [], _, best_moves => best_moves
  | rc :: rest, best_score, best_moves =>
    let s := total_score b rc.1 rc.2
    if best_score < s then selectLoop b rest s [rc]
    else if s = best_score then selectLoop b rest best_score (best_moves ++ [rc])
    else selectLoop b rest best_score best_moves

/-- Python `get_ai_move()` up to its final `random.choice(best_moves)`:
this definition returns the pool from which the random choice draws.  When
the candidate list is empty the Python function returns `(7, 7)` directly
(before any randomness), embedded as the singleton pool `[(7, 7)]`; the
Python return value is always a member of this pool. -/
def get_ai_move (b : Board) : List (Int × Int) :=
  let candidates := get_candidate_positions b
  if candidates.isEmpty then [(7, 7)]
  else selectLoop b candidates (-1) []

/-- A board full of black stones (every in-range cell occupied). -/
def fullB : Board := fun _ _ => BLACK

/-- Board for the missed-win scenario: WHITE (the AI side) holds
`(7,6)..(7,9)`, BLACK blocks at `(7,5)`; the open end is `(7,10)`. -/
def c3board : Board := fun r c =>
  if r = 7 ∧ c = 5 then BLACK
  else if r = 7 ∧ 6 ≤ c ∧ c ≤ 9 then WHITE
  else EMPTY

/-- Board for the unblocked-open-four scenario: BLACK (the opponent) holds
`(7,6)..(7,9)` with both ends `(7,5)` and `(7,10)` empty. -/
def c4board : Board := fun r c =>
  if r = 7 ∧ 6 ≤ c ∧ c ≤ 9 then BLACK else EMPTY

/-- Helper: the scan condition is false at a cell that is out of range or
does not hold `player`. -/
lemma cond_false_of (b : Board) (player : Nat) (r c : Int)
    (h : inRangeB r c = false ∨ b r c ≠ player) :
    (inRangeB r c && (b r c == player)) = false := by
  rcases h with h | h
  · simp [h]
  · simp [h]

/-- Helper: if the cells `i = 0, …, n-1` from `(r, c)` along `(dr, dc)` all
pass the scan condition and the `n`-th cell fails it, the while loop counts
exactly `n` (for any sufficient fuel). -/
lemma countDir_stop (b : Board) (player : Nat) (dr dc : Int) :
    ∀ (n fuel : Nat) (r c : Int), n < fuel →
      (∀ i : Int, 0 ≤ i → i < n →
        (inRangeB (r + i * dr) (c + i * dc)
          && (b (r + i * dr) (c + i * dc) == player)) = true) →
      (inRangeB (r + n * dr) (c + n * dc)
          && (b (r + n * dr) (c + n * dc) == player)) = false →
      countDir b player fuel r c dr dc = n := by
  intro n
  induction n with
  | zero =>
    intro fuel r c hf _ hstop
    obtain ⟨m, rfl⟩ : ∃ m, fuel = m + 1 := ⟨fuel - 1, by omega⟩
    simp only [Nat.cast_zero, zero_mul, add_zero] at hstop
    simp [countDir, hstop]
  | succ n ih =>
    intro fuel r c hf hmatch hstop
    obtain ⟨m, rfl⟩ : ∃ m, fuel = m + 1 := ⟨fuel - 1, by omega⟩
    have h0 : (inRangeB r c && (b r c == player)) = true := by
      have h := hmatch 0 le_rfl (by positivity)
      simpa using h
    push_cast at hstop
    have hrec : countDir b player m (r + dr) (c + dc) dr dc = n := by
      apply ih m (r + dr) (c + dc) (by omega)
      · intro i h0i h1i
        have e1 : r + dr + i * dr = r + (i + 1) * dr := by ring
        have e2 : c + dc + i * dc = c + (i + 1) * dc := by ring
        rw [e1, e2]
        exact hmatch (i + 1) (by omega) (by push_cast; omega)
      · have e1 : r + dr + (n : Int) * dr = r + ((n : Int) + 1) * dr := by ring
        have e2 : c + dc + (n : Int) * dc = c + ((n : Int) + 1) * dc := by ring
        rw [e1, e2]
        exact hstop
    simp [countDir, h0, hrec, Nat.add_comm]

/-- The cells `(row + i*dr, col + i*dc)` for `-bk ≤ i ≤ fw` form a maximal
run of `player` through `(row, col)`: all of them are in range and hold
`player`, and each of the two cells just beyond the run is out of range or
does not hold `player`.  The run index is parameterised as `j - bk` for
natural `j ≤ bk + fw` so that the predicate is decidable. -/
def isMaxRun (b : Board) (player : Nat) (row col dr dc : Int)
    (bk fw : Nat) : Prop :=
  (∀ j : Nat, j ≤ bk + fw →
    inRangeB (row + ((j : Int) - bk) * dr) (col + ((j : Int) - bk) * dc) = true ∧
    b (row + ((j : Int) - bk) * dr) (col + ((j : Int) - bk) * dc) = player) ∧
  (inRangeB (row + ((fw : Int) + 1) * dr) (col + ((fw : Int) + 1) * dc) = false ∨
    b (row + ((fw : Int) + 1) * dr) (col + ((fw : Int) + 1) * dc) ≠ player) ∧
  (inRangeB (row - ((bk : Int) + 1) * dr) (col - ((bk : Int) + 1) * dc) = false ∨
    b (row - ((bk : Int) + 1) * dr) (col - ((bk : Int) + 1) * dc) ≠ player)

instance isMaxRun.instDecidable (b : Board) (player : Nat)
    (row col dr dc : Int) (bk fw : Nat) :
    Decidable (isMaxRun b player row col dr dc bk fw) := by
  unfold isMaxRun
  infer_instance

/-- Helper: on a maximal run of `bk` backward and `fw` forward stones the
bidirectional axis count of `check_win` is exactly `bk + fw + 1`. -/
lemma axisTotal_of_run (b : Board) (player : Nat) (row col dr dc : Int)
    (bk fw : Nat) (hfw : fw < 15) (hbk : bk < 15)
    (hrun : isMaxRun b player row col dr dc bk fw) :
    axisTotal b player row col dr dc = bk + fw + 1 := by
  obtain ⟨hcell, hfwd, hbwd⟩ := hrun
  have hfcount : countDir b player 16 (row + dr) (col + dc) dr dc = fw := by
    apply countDir_stop b player dr dc fw 16 (row + dr) (col + dc) (by omega)
    · intro i h0i h1i
      have hcast : ((i.toNat : Int)) = i := Int.toNat_of_nonneg h0i
      have hjle : bk + 1 + i.toNat ≤ bk + fw := by omega
      have h := hcell (bk + 1 + i.toNat) hjle
      have hji : ((bk + 1 + i.toNat : Nat) : Int) - bk = i + 1 := by
        push_cast
        omega
      rw [hji] at h
      have e1 : row + dr + i * dr = row + (i + 1) * dr := by ring
      have e2 : col + dc + i * dc = col + (i + 1) * dc := by ring
      rw [e1, e2]
      simp [h.1, h.2]
    · have e1 : row + dr + (fw : Int) * dr = row + ((fw : Int) + 1) * dr := by
        ring
      have e2 : col + dc + (fw : Int) * dc = col + ((fw : Int) + 1) * dc := by
        ring
      rw [e1, e2]
      exact cond_false_of b player _ _ hfwd
  have hbcount :
      countDir b player 16 (row - dr) (col - dc) (-dr) (-dc) = bk := by
    apply countDir_stop b player (-dr) (-dc) bk 16 (row - dr) (col - dc)
      (by omega)
    · intro i h0i h1i
      have hcast : ((i.toNat : Int)) = i := Int.toNat_of_nonneg h0i
      have hlt : i.toNat < bk := by omega
      have hjle : bk - 1 - i.toNat ≤ bk + fw := by omega
      have h := hcell (bk - 1 - i.toNat) hjle
      have hji : ((bk - 1 - i.toNat : Nat) : Int) - bk = -(i + 1) := by
        push_cast [Nat.cast_sub] at *
        omega
      rw [hji] at h
      have e1 : row - dr + i * (-dr) = row + (-(i + 1)) * dr := by ring
      have e2 : col - dc + i * (-dc) = col + (-(i + 1)) * dc := by ring
      rw [e1, e2]
      simp only [Bool.and_eq_true, beq_iff_eq]
      exact ⟨h.1, h.2⟩
    · have e1 : row - dr + (bk : Int) * (-dr) = row - ((bk : Int) + 1) * dr := by
        ring
      have e2 : col - dc + (bk : Int) * (-dc) = col - ((bk : Int) + 1) * dc := by
        ring
      rw [e1, e2]
      exact cond_false_of b player _ _ hbwd
  rw [axisTotal, hfcount, hbcount]
  omega

/-- Claim C1: for every board and every cell, `check_win` returns true iff
on one of the four axes the bidirectional count (forward extension plus
backward extension plus 1 for the origin, counted once) reaches 5; and for
a maximal unbroken run of exactly `bk + fw + 1` stones through `(row, col)`
on an axis, the axis total equals that run length exactly, including runs
touching the board edges. -/
theorem check_win_counts (b : Board) (player : Nat) (row col : Int) :
    (check_win b row col player = true ↔
      ∃ d ∈ directions, 5 ≤ axisTotal b player row col d.1 d.2) ∧
    (∀ dr dc : Int, ∀ bk fw : Nat, (dr, dc) ∈ directions →
      isMaxRun b player row col dr dc bk fw →
      axisTotal b player row col dr dc = bk + fw + 1) := by
  constructor
  · simp [check_win, List.any_eq_true]
  · intro dr dc bk fw hd hrun
    have hbound : fw < 15 ∧ bk < 15 := by
      have h0 := (hrun.1 (bk + fw) le_rfl).1
      have h1 := (hrun.1 0 (Nat.zero_le _)).1
      simp only [directions, List.mem_cons, List.mem_singleton,
        Prod.mk.injEq, List.not_mem_nil, or_false] at hd
      simp only [inRangeB, BOARD_SIZE, decide_eq_true_eq, Nat.cast_zero,
        Nat.cast_ofNat, zero_sub] at h0 h1
      rcases hd with ⟨h2, h3⟩ | ⟨h2, h3⟩ | ⟨h2, h3⟩ | ⟨h2, h3⟩ <;>
        subst h2 <;> subst h3 <;> push_cast at h0 h1 <;> constructor <;> omega
    exact axisTotal_of_run b player row col dr dc bk fw hbound.1 hbound.2 hrun

/-- Witness for C1: on the board with a lone black run on row 7 at columns
5–9, calling `check_win` on the last stone `(7,9)` finds the axis total 5
(4 backward + 0 forward + the origin) and reports a win; on the 4-run board
the axis total at `(7,8)` is 4 and there is no win. -/
theorem check_win_counts_witness :
    isMaxRun b5run BLACK 7 9 0 1 4 0 ∧
    axisTotal b5run BLACK 7 9 0 1 = 5 ∧
    check_win b5run 7 9 BLACK = true ∧
    isMaxRun b4run BLACK 7 8 0 1 3 0 ∧
    axisTotal b4run BLACK 7 8 0 1 = 4 ∧
    check_win b4run 7 8 BLACK = false :=
  ⟨by decide,
   (check_win_counts b5run BLACK 7 9).2 0 1 4 0 (by decide) (by decide),
   by decide,
   by decide,
   (check_win_counts b4run BLACK 7 8).2 0 1 3 0 (by decide) (by decide),
   by decide⟩

/-- Claim C2: `evaluate_position` (the spec's `score_point`) restores every
cell of the board, including the probed cell itself, to its value before the
call: the two temporary hypothetical placements are fully undone. -/
theorem evaluate_position_board_unchanged (b : Board) (row col : Int)
    (player : Nat) (hr : inRangeB row col = true) (he : b row col = EMPTY) :
    ∀ r c : Int, (evaluate_position b row col player).2 r c = b r c := by
  intro r c
  simp only [evaluate_position, setCell]
  by_cases h : r = row ∧ c = col
  · simp only [if_pos h]
    rw [← he, h.1, h.2]
  · simp only [if_neg h]

/-- Witness for C2: probing the empty board at `(7,7)` for BLACK leaves the
probed cell `(7,7)` and the unrelated cell `(0,3)` with their old values. -/
theorem evaluate_position_board_unchanged_witness :
    inRangeB 7 7 = true ∧ emptyB 7 7 = EMPTY ∧
    (evaluate_position emptyB 7 7 BLACK).2 7 7 = emptyB 7 7 ∧
    (evaluate_position emptyB 7 7 BLACK).2 0 3 = emptyB 0 3 :=
  ⟨by decide, rfl,
   evaluate_position_board_unchanged emptyB 7 7 BLACK (by decide) rfl 7 7,
   evaluate_position_board_unchanged emptyB 7 7 BLACK (by decide) rfl 0 3⟩

/-- Claim C5: `make_move` on an in-range empty cell followed by `undo_move`
restores the board cell-for-cell and the history exactly; and `undo_move`
with an empty history changes nothing and returns the `false` signal. -/
theorem make_move_undo_move_roundtrip (b : Board) (hist : History)
    (row col : Int) (player : Nat)
    (hr : inRangeB row col = true) (he : b row col = EMPTY) :
    (∀ r c : Int,
      (undo_move (make_move b hist row col player).1
        (make_move b hist row col player).2.1).1.1 r c = b r c) ∧
    (undo_move (make_move b hist row col player).1
        (make_move b hist row col player).2.1).1.2 = hist ∧
    undo_move b [] = ((b, []), false) := by
  refine ⟨?_, ?_, rfl⟩
  · intro r c
    simp only [make_move, undo_move, List.getLast?_concat, List.dropLast_concat,
      setCell]
    by_cases h : r = row ∧ c = col
    · simp only [if_pos h]
      rw [← he, h.1, h.2]
    · simp only [if_neg h]
  · simp [make_move, undo_move]

/-- Witness for C5: placing WHITE at the empty in-range cell `(3,4)` of the
4-run board on top of a one-entry history and undoing restores the cell and
the history, and undoing with no history is a signalled no-op. -/
theorem make_move_undo_move_roundtrip_witness :
    inRangeB 3 4 = true ∧ b4run 3 4 = EMPTY ∧
    (undo_move (make_move b4run [(7, 5, BLACK)] 3 4 WHITE).1
        (make_move b4run [(7, 5, BLACK)] 3 4 WHITE).2.1).1.1 3 4 = b4run 3 4 ∧
    (undo_move (make_move b4run [(7, 5, BLACK)] 3 4 WHITE).1
        (make_move b4run [(7, 5, BLACK)] 3 4 WHITE).2.1).1.2 = [(7, 5, BLACK)] ∧
    undo_move b4run [] = ((b4run, []), false) := by
  have h := make_move_undo_move_roundtrip b4run [(7, 5, BLACK)] 3 4 WHITE
    (by decide) (by decide)
  exact ⟨by decide, by decide, h.1 3 4, h.2.1, h.2.2⟩

/-- Counterexample to claim C6: `make_move` on the already-occupied cell
`(7,7)` (held by BLACK) is not rejected: it overwrites the cell with WHITE
and appends to the history, so the state is not left unchanged and no error
signal is produced. -/
def occBoard : Board := fun r c => if r = 7 ∧ c = 7 then BLACK else EMPTY

theorem make_move_occupied_not_rejected :
    occBoard 7 7 = BLACK ∧
    (make_move occBoard [] 7 7 WHITE).1 7 7 = WHITE ∧
    (make_move occBoard [] 7 7 WHITE).2.1 = [(7, 7, WHITE)] := by
  refine ⟨rfl, ?_, rfl⟩
  simp [make_move, setCell]

/-- Claim C6 as amended: `make_move` itself performs no validation — for any
in-range cell, occupied or not, it writes `player` into the cell and appends
the move to the history; rejection of out-of-range or occupied placements is
done separately by `is_valid_move`, which for every coordinate pair —
in range or not — returns `true` exactly when the cell is in range and
empty (and which the game loop consults before calling `make_move`). -/
theorem make_move_no_validation (b : Board) (hist : History)
    (row col : Int) (player : Nat) (hr : inRangeB row col = true) :
    (make_move b hist row col player).1 row col = player ∧
    (make_move b hist row col player).2.1 = hist ++ [(row, col, player)] ∧
    (∀ r c : Int, is_valid_move b r c = true ↔
      inRangeB r c = true ∧ b r c = EMPTY) := by
  refine ⟨by simp [make_move, setCell], rfl, ?_⟩
  intro r c
  by_cases h : inRangeB r c = true
  · simp [is_valid_move, h]
  · simp [is_valid_move, h]

/-- Witness for C6's amended claim, at the occupied centre of `occBoard`:
the overwrite happens, and `is_valid_move` reports the empty in-range cell
`(0,0)` valid, the occupied cell `(7,7)` invalid, and the out-of-range
coordinates `(15,7)` and `(7,-1)` invalid. -/
theorem make_move_no_validation_witness :
    inRangeB 7 7 = true ∧
    (make_move occBoard [] 7 7 WHITE).1 7 7 = WHITE ∧
    (make_move occBoard [] 7 7 WHITE).2.1 = [] ++ [(7, 7, WHITE)] ∧
    is_valid_move occBoard 0 0 = true ∧
    is_valid_move occBoard 7 7 = false ∧
    is_valid_move occBoard 15 7 = false ∧
    is_valid_move occBoard 7 (-1) = false := by
  have h := make_move_no_validation occBoard [] 7 7 WHITE (by decide)
  refine ⟨by decide, h.1, h.2.1,
    (h.2.2 0 0).mpr ⟨by decide, by decide⟩, ?_, ?_, ?_⟩
  · cases hv : is_valid_move occBoard 7 7
    · rfl
    · exact absurd ((h.2.2 7 7).mp hv).2 (by decide)
  · cases hv : is_valid_move occBoard 15 7
    · rfl
    · exact absurd ((h.2.2 15 7).mp hv).1 (by decide)
  · cases hv : is_valid_move occBoard 7 (-1)
    · rfl
    · exact absurd ((h.2.2 7 (-1)).mp hv).1 (by decide)

/-- Counterexample to claim C8: the blocked-four contribution does not
compare strictly greater than the live-three contribution — both are 1000. -/
theorem blocked_four_not_gt_live_three :
    patternScore 4 1 = 1000 ∧ patternScore 3 2 = 1000 ∧
    ¬ patternScore 3 2 < patternScore 4 1 := by
  refine ⟨rfl, rfl, by decide⟩

/-- Claim C8 as amended: the per-pattern contributions are tiered with
connect-five (100000) strictly above everything lower, live-four (10000)
strictly above blocked-four (1000), blocked-four greater than **or equal
to** live-three (they are equal, both 1000), live-three strictly above
sleeping-three (100), and live-two (100) strictly above sleeping-two (10). -/
theorem patternScore_tier_order :
    (∀ count open_ends : Nat, 5 ≤ count →
      patternScore count open_ends = 100000) ∧
    (∀ count open_ends : Nat, count < 5 →
      patternScore count open_ends < 100000) ∧
    patternScore 4 1 < patternScore 4 2 ∧
    patternScore 3 2 ≤ patternScore 4 1 ∧
    patternScore 3 1 < patternScore 3 2 ∧
    patternScore 2 1 < patternScore 2 2 := by
  refine ⟨?_, ?_, by decide, by decide, by decide, by decide⟩
  · intro count open_ends h
    simp [patternScore, h]
  · intro count open_ends h
    interval_cases count <;> simp [patternScore] <;> split <;> omega

/-- Witness for C8's amended claim: a six-run scores the connect-five tier
100000 and a dead two stays strictly below it. -/
theorem patternScore_tier_order_witness :
    patternScore 6 0 = 100000 ∧ patternScore 2 0 < 100000 :=
  ⟨patternScore_tier_order.1 6 0 (by decide),
   patternScore_tier_order.2.1 2 0 (by decide)⟩

/-- Claim C9: `count_consecutive` emits an entry only for a run whose
starting cell holds `player` and whose backward neighbour along the axis
lies outside the board; consequently, on a board where no stone of `player`
sits on such a border start of the axis, it returns the empty list, and if
that holds for all four axes `evaluate_line` scores 0 — interior runs
contribute nothing. -/
theorem count_consecutive_border_only (b : Board) (player : Nat)
    (dr dc : Int) :
    (∀ e ∈ count_consecutive b player dr dc, ∃ row col : Nat,
      row < BOARD_SIZE ∧ col < BOARD_SIZE ∧
      inRangeB ((row : Int) - dr) ((col : Int) - dc) = false ∧
      b row col = player) ∧
    ((∀ row : Nat, row < BOARD_SIZE → ∀ col : Nat, col < BOARD_SIZE →
        inRangeB ((row : Int) - dr) ((col : Int) - dc) = false →
        b row col ≠ player) →
      count_consecutive b player dr dc = []) ∧
    ((∀ d ∈ directions, ∀ row : Nat, row < BOARD_SIZE →
        ∀ col : Nat, col < BOARD_SIZE →
        inRangeB ((row : Int) - d.1) ((col : Int) - d.2) = false →
        b row col ≠ player) →
      evaluate_line b player = 0) := by
  have h1 : ∀ (dr' dc' : Int), ∀ e ∈ count_consecutive b player dr' dc',
      ∃ row col : Nat, row < BOARD_SIZE ∧ col < BOARD_SIZE ∧
        inRangeB ((row : Int) - dr') ((col : Int) - dc') = false ∧
        b row col = player := by
    intro dr' dc' e he
    simp only [count_consecutive, List.mem_flatMap, List.mem_range,
      List.mem_filterMap] at he
    obtain ⟨row, hrow, col, hcol, hfc⟩ := he
    refine ⟨row, col, hrow, hcol, ?_⟩
    simp only [ccEntry] at hfc
    split at hfc
    · exact absurd hfc (by simp)
    · rename_i hborder
      split at hfc
      · rename_i hplayer
        refine ⟨by simpa using hborder, by simpa using hplayer⟩
      · exact absurd hfc (by simp)
  have h2 : ∀ (dr' dc' : Int),
      (∀ row : Nat, row < BOARD_SIZE → ∀ col : Nat, col < BOARD_SIZE →
        inRangeB ((row : Int) - dr') ((col : Int) - dc') = false →
        b row col ≠ player) →
      count_consecutive b player dr' dc' = [] := by
    intro dr' dc' h
    refine List.eq_nil_iff_forall_not_mem.mpr (fun e he => ?_)
    obtain ⟨row, col, hrow, hcol, hb, hp⟩ := h1 dr' dc' e he
    exact h row hrow col hcol hb hp
  refine ⟨h1 dr dc, h2 dr dc, ?_⟩
  intro h
  have z01 := h2 0 1 (h (0, 1) (by simp [directions]))
  have z10 := h2 1 0 (h (1, 0) (by simp [directions]))
  have z11 := h2 1 1 (h (1, 1) (by simp [directions]))
  have z1m := h2 1 (-1) (h (1, -1) (by simp [directions]))
  simp [evaluate_line, directions, z01, z10, z11, z1m]

/-- Witness for C9: on a board whose only stones are two black stones at
`(7,7)` and `(7,8)` — a genuine pair, but interior on every axis — every
axis scan returns the empty list and the black evaluation is 0. -/
def interiorPair : Board := fun r c =>
  if r = 7 ∧ (c = 7 ∨ c = 8) then BLACK else EMPTY

theorem count_consecutive_border_only_witness :
    count_consecutive interiorPair BLACK 0 1 = [] ∧
    evaluate_line interiorPair BLACK = 0 :=
  ⟨(count_consecutive_border_only interiorPair BLACK 0 1).2.1 (by decide),
   (count_consecutive_border_only interiorPair BLACK 0 1).2.2 (by decide)⟩

/-- Claim C3 fails on the code: on `c3board` the AI side WHITE has four in a
row at `(7,6)..(7,9)` with the single open end `(7,10)` (placing there wins,
as `check_win` confirms), yet the evaluator's attack score for that cell is
0 — `count_consecutive` sees no run because the run does not touch the
board border — so the winning cell, although a candidate, is not in the
move pool: `get_ai_move` offers only the centre-proximity cells `(6,7)` and
`(8,7)`. -/
theorem ai_misses_one_move_win :
    c3board 7 10 = EMPTY ∧
    check_win (setCell c3board 7 10 WHITE) 7 10 WHITE = true ∧
    (evaluate_position c3board 7 10 WHITE).1.1 = 0 ∧
    (7, 10) ∈ get_candidate_positions c3board ∧
    get_ai_move c3board = [(6, 7), (8, 7)] ∧
    (7, 10) ∉ get_ai_move c3board := by
  refine ⟨rfl, by decide, by decide, by decide, by decide, by decide⟩

/-- Claim C4 fails on the code: on `c4board` the opponent BLACK has an open
four at `(7,6)..(7,9)` with both end cells `(7,5)` and `(7,10)` empty and in
range (either completion wins for BLACK, as `check_win` confirms), yet
`get_ai_move` offers only the unrelated centre-proximity cells `(6,7)` and
`(8,7)` — neither blocking cell is in the pool, again because the interior
run is invisible to `count_consecutive`. -/
theorem ai_ignores_open_four :
    c4board 7 5 = EMPTY ∧ c4board 7 10 = EMPTY ∧
    c4board 7 6 = BLACK ∧ c4board 7 7 = BLACK ∧
    c4board 7 8 = BLACK ∧ c4board 7 9 = BLACK ∧
    check_win (setCell c4board 7 5 BLACK) 7 5 BLACK = true ∧
    check_win (setCell c4board 7 10 BLACK) 7 10 BLACK = true ∧
    get_ai_move c4board = [(6, 7), (8, 7)] ∧
    (7, 5) ∉ get_ai_move c4board ∧
    (7, 10) ∉ get_ai_move c4board := by
  refine ⟨rfl, rfl, by decide, by decide, by decide, by decide,
    by decide, by decide, by decide, by decide, by decide⟩

/-- Claim C7 fails on the code: on the completely full board the candidate
list is empty, and `get_ai_move` does not signal a draw — it returns the
centre cell `(7,7)`, which is occupied. -/
theorem full_board_returns_center :
    get_candidate_positions fullB = [] ∧
    get_ai_move fullB = [(7, 7)] ∧
    fullB 7 7 = BLACK := by
  refine ⟨by decide, by decide, rfl⟩

/-- Claim C10: whenever candidate generation yields the empty list — as it
does both on the completely empty board and on the completely full board —
`get_ai_move` returns exactly the centre cell `(7,7)`, with no check that
`(7,7)` is empty (on the full board it is occupied). -/
theorem candidates_empty_returns_center (b : Board)
    (h : get_candidate_positions b = []) :
    get_ai_move b = [(7, 7)] ∧
    get_candidate_positions emptyB = [] ∧
    get_candidate_positions fullB = [] ∧
    fullB 7 7 ≠ EMPTY := by
  refine ⟨?_, by decide, by decide, by decide⟩
  simp [get_ai_move, h]

/-- Witness for C10 at the full board: candidates are empty and the move
pool is exactly the occupied centre. -/
theorem candidates_empty_returns_center_witness :
    get_candidate_positions fullB = [] ∧ get_ai_move fullB = [(7, 7)] :=
  ⟨by decide, (candidates_empty_returns_center fullB (by decide)).1⟩
